import Mathlib

/-!
# Verification of `src/components/news-summary-browser.mjs`

A shallow embedding of the `news-summary-browser` web component.  The
component's methods mutate `this`; we model them as pure functions from a
state record to a state record, together with the trace of calls they issue
to the external git library (`git.clone`, `git.fetch`, `git.log`,
`git.checkout`) and to the virtual filesystem (`pfs.readFile`).  The
outcomes of those external calls are supplied by an environment record
`GitEnv`; an async function that rejects is modelled by a `threw` flag in
`OpResult`, with the state reflecting every mutation performed before the
rejection (JavaScript mutates `this` in place).  DOM parsing performed by
`displayCommit` (`createHTMLDocument`, the `<hr>` truncation) is modelled by
the opaque environment function `renderBody`.
-/

/-- The nested `commit` object of a `git.log` entry (only `message` is read). -/
structure CommitInner where
  message : String
deriving DecidableEq

/-- An entry of the list returned by `git.log`. -/
structure Commit where
  oid : String
  commit : CommitInner
deriving DecidableEq

/-- The argument object passed to `git.clone` (lines 16–25). -/
structure CloneArgs where
  fs : Nat
  http : Nat
  dir : String
  url : String
  ref : String
  singleBranch : Bool
  depth : Nat
  corsProxy : String
deriving DecidableEq

/-- The argument object passed to `git.fetch`; `shallow` is `none` where the
source omits the key (lines 27–36) and `some true` in `prefetchMore`
(line 197). -/
structure FetchArgs where
  fs : Nat
  http : Nat
  dir : String
  url : String
  ref : String
  singleBranch : Bool
  depth : Nat
  shallow : Option Bool
  corsProxy : String
deriving DecidableEq

/-- The argument object passed to `git.log`. -/
structure LogArgs where
  fs : Nat
  dir : String
  ref : String
  depth : Nat
deriving DecidableEq

/-- The argument object passed to `git.checkout`; `force` is `none` where the
source omits the key (line 288) and `some true` in `checkoutCommit`
(line 45). -/
structure CheckoutArgs where
  fs : Nat
  dir : String
  ref : String
  force : Option Bool
deriving DecidableEq

/-- One call to the external git library or to the virtual filesystem. -/
inductive GitCall where
  | clone (a : CloneArgs)
  | fetch (a : FetchArgs)
  | log (a : LogArgs)
  | checkout (a : CheckoutArgs)
  | readFile (path : String)
deriving DecidableEq

/-- The depth argument carried by a call, when it has one. -/
def GitCall.depthOf : GitCall → Option Nat
  | .clone a => some a.depth
  | .fetch a => some a.depth
  | .log a => some a.depth
  | .checkout _ => none
  | .readFile _ => none

/-- The external world: outcomes of isomorphic-git / LightningFS calls
(`true` / `.ok` means the promise resolves, `false` / `.error` means it
rejects), the DOM body-extraction used by `displayCommit`, and the
`globalThis` handles (`fs`, the http client, and `globalThis.dir`). -/
structure GitEnv where
  cloneOk : CloneArgs → Bool
  fetchOk : FetchArgs → Bool
  logRes : LogArgs → Except Unit (List Commit)
  checkoutOk : CheckoutArgs → Bool
  readFileRes : String → Except Unit String
  renderBody : String → String
  fsH : Nat
  httpH : Nat
  gdir : String

/-- The CORS proxy constant appearing in every clone/fetch call. -/
def corsProxyURL : String := "https://cors.isomorphic-git.org"

/-- The destructured argument object of the exported `cloneOrFetchRepo`. -/
structure CloneOrFetchArgs where
  fs : Nat
  http : Nat
  dir : String
  url : String
  branch : String
  depth : Nat
deriving DecidableEq

/-- `cloneOrFetchRepo` (lines 6–38): try `git.clone`; on rejection fall back
to a single `git.fetch` with the same parameters.  Returns the call trace and
whether the function itself rejected. -/
def cloneOrFetchRepo (env : GitEnv) (a : CloneOrFetchArgs) : List GitCall × Bool :=
  let cargs : CloneArgs :=
    { fs := a.fs, http := a.http, dir := a.dir, url := a.url, ref := a.branch,
      singleBranch := true, depth := a.depth, corsProxy := corsProxyURL }
  if env.cloneOk cargs then ([.clone cargs], false)
  else
    let fargs : FetchArgs :=
      { fs := a.fs, http := a.http, dir := a.dir, url := a.url, ref := a.branch,
        singleBranch := true, depth := a.depth, shallow := none,
        corsProxy := corsProxyURL }
    ([.clone cargs, .fetch fargs], !env.fetchOk fargs)

/-- `getCommits` (lines 40–42): a direct `git.log`. -/
def getCommits (env : GitEnv) (a : LogArgs) : Except Unit (List Commit) × List GitCall :=
  (env.logRes a, [.log a])

/-- `checkoutCommit` (lines 44–46): `git.checkout` with `force: true`. -/
def checkoutCommit (env : GitEnv) (fs : Nat) (dir oid : String) : Bool × List GitCall :=
  let cargs : CheckoutArgs := { fs := fs, dir := dir, ref := oid, force := some true }
  (env.checkoutOk cargs, [.checkout cargs])

/-- `readIndexFile` (lines 48–53): read `${dir}/index.html`. -/
def readIndexFile (env : GitEnv) (dir : String) : Except Unit String × List GitCall :=
  let path := dir ++ "/index.html"
  (env.readFileRes path, [.readFile path])

/-- The mutable fields of a `NewsSummaryBrowser` element: the counters and
flags set in the constructor (lines 105–117) and the text/disabled state of
the DOM nodes the component writes to (`#status`, `#commitInfo`, `#content`,
the two buttons). -/
structure NSBState where
  currentIndex : Int
  fetchFailed : Bool
  isFetching : Bool
  loadingMore : Bool
  log : List Commit
  branch : String
  fetchStep : Nat
  fetchThreshold : Nat
  initialDepth : Nat
  repoUrl : String
  statusText : String
  commitInfo : String
  contentHTML : String
  backDisabled : Bool
  nextDisabled : Bool
  backText : String
deriving DecidableEq

/-- Result of running one (async) component method: the state after all
mutations, the trace of external calls, and whether the method rejected. -/
structure OpResult where
  state : NSBState
  calls : List GitCall
  threw : Bool
deriving DecidableEq

/-- JavaScript `this.log[i]` for a possibly negative index `i`. -/
def getAt? (l : List Commit) (i : Int) : Option Commit :=
  if 0 ≤ i then l.get? i.toNat else none

namespace NewsSummaryBrowser

/-- The component state right after the constructor body (lines 105–117):
`currentIndex = 0`, all flags false, empty log, configuration from the
attributes. -/
def initState (repoUrl branch : String) (fetchStep fetchThreshold initialDepth : Nat) :
    NSBState :=
  { currentIndex := 0, fetchFailed := false, isFetching := false, loadingMore := false,
    log := [], branch := branch, fetchStep := fetchStep,
    fetchThreshold := fetchThreshold, initialDepth := initialDepth,
    repoUrl := repoUrl, statusText := "", commitInfo := "", contentHTML := "",
    backDisabled := false, nextDisabled := false, backText := "" }

/-- `updateStatus` (lines 171–173). -/
def updateStatus (s : NSBState) (msg : String) : NSBState :=
  { s with statusText := msg }

/-- `commit.commit.message.trim().split("\n")[0]` (line 226). -/
def firstLine (msg : String) : String :=
  (msg.trim.splitOn "\n").headD ""

/-- The `#commitInfo` text built by `updateUI` (lines 224–226). -/
def commitInfoText (i : Int) (len : Nat) (c : Commit) : String :=
  "Commit " ++ toString (i + 1) ++ "/" ++ toString len ++ ": " ++
    firstLine c.commit.message

/-- `updateUI` (lines 220–240). -/
def updateUI (s : NSBState) : NSBState :=
  let s1 :=
    match getAt? s.log s.currentIndex with
    | some c => { s with commitInfo := commitInfoText s.currentIndex s.log.length c }
    | none => s
  { s1 with
    backDisabled :=
      decide ((s1.log.length : Int) - 1 ≤ s1.currentIndex) &&
        (s1.fetchFailed || !s1.loadingMore),
    nextDisabled := decide (s1.currentIndex ≤ 0),
    backText := if s1.loadingMore then "⬅ Loading older..." else "⬅ Back (Older)" }

/-- The `git.fetch` argument object built in `prefetchMore` (lines 189–199). -/
def prefetchFetchArgs (env : GitEnv) (s : NSBState) : FetchArgs :=
  { fs := env.fsH, http := env.httpH, dir := env.gdir, url := s.repoUrl,
    ref := s.branch, singleBranch := true, depth := s.log.length + s.fetchStep,
    shallow := some true, corsProxy := corsProxyURL }

/-- The `git.log` argument object built in `prefetchMore` (lines 201–206). -/
def prefetchLogArgs (env : GitEnv) (s : NSBState) : LogArgs :=
  { fs := env.fsH, dir := env.gdir, ref := s.branch,
    depth := s.log.length + s.fetchStep }

/-- The `finally` branch of `prefetchMore` (lines 211–217): clear the flags,
set the status from `fetchFailed`, and refresh the UI. -/
def prefetchFinish (s : NSBState) (failed : Bool) : NSBState :=
  updateUI (updateStatus
    { s with fetchFailed := failed, isFetching := false, loadingMore := false }
    (if failed then "Reached oldest commit" else ""))

/-- `prefetchMore` (lines 175–218).  Bails out when a fetch is already in
flight or has failed; otherwise fetches `fetchStep` more commits at depth
`log.length + fetchStep` and replaces `log` with the fresh `git.log`
result.  `prefetchMore` never rejects: every await is inside the
`try`/`catch`/`finally`. -/
def prefetchMore (env : GitEnv) (s : NSBState) : NSBState × List GitCall :=
  if s.isFetching = true ∨ s.fetchFailed = true ∨ s.loadingMore = true then (s, [])
  else
    let targetDepth := s.log.length + s.fetchStep
    let s1 := updateStatus { s with isFetching := true, loadingMore := true }
      ("Fetching " ++ toString s.fetchStep ++ " more commits... (" ++
        toString targetDepth ++ " total)")
    let fargs := prefetchFetchArgs env s
    if env.fetchOk fargs then
      let largs := prefetchLogArgs env s
      match env.logRes largs with
      | .ok commits =>
          (prefetchFinish { s1 with log := commits } false, [.fetch fargs, .log largs])
      | .error _ => (prefetchFinish s1 true, [.fetch fargs, .log largs])
    else (prefetchFinish s1 true, [.fetch fargs])

/-- The fallback markup of `displayCommit` (line 331). -/
def fallbackHTML : String := "<em>No index.html found in commit</em>"

/-- `displayCommit` (lines 305–335).  Guard on the index, set
`currentIndex`, check out the commit (a rejection here propagates: the
checkout is not inside the `try`), then read and render `index.html`
with the fallback markup on a read failure, and refresh the UI. -/
def displayCommit (env : GitEnv) (s : NSBState) (index : Int) : OpResult :=
  match getAt? s.log index with
  | none => ⟨s, [], false⟩
  | some commit =>
    let s1 := { s with currentIndex := index }
    let co := checkoutCommit env env.fsH env.gdir commit.oid
    if co.1 then
      let rd := readIndexFile env env.gdir
      match rd.1 with
      | .ok file =>
          ⟨updateUI { s1 with contentHTML := env.renderBody file },
            co.2 ++ rd.2, false⟩
      | .error _ =>
          ⟨updateUI { s1 with contentHTML := fallbackHTML }, co.2 ++ rd.2, false⟩
    else ⟨s1, co.2, true⟩

/-- The first half of `showOlder` (lines 243–250): prefetch when at most
`fetchThreshold` loaded commits remain behind the current one. -/
def showOlderPre (env : GitEnv) (s : NSBState) : NSBState × List GitCall :=
  let remaining : Int := (s.log.length : Int) - s.currentIndex - 1
  if remaining ≤ (s.fetchThreshold : Int) ∧ s.fetchFailed = false ∧ s.loadingMore = false
  then prefetchMore env s
  else (s, [])

/-- `showOlder` (lines 242–257). -/
def showOlder (env : GitEnv) (s : NSBState) : OpResult :=
  let pre := showOlderPre env s
  let s1 := pre.1
  if s1.currentIndex < (s1.log.length : Int) - 1 then
    let s2 := { s1 with currentIndex := s1.currentIndex + 1 }
    let r := displayCommit env s2 s2.currentIndex
    ⟨r.state, pre.2 ++ r.calls, r.threw⟩
  else ⟨s1, pre.2, false⟩

/-- `showNewer` (lines 259–265). -/
def showNewer (env : GitEnv) (s : NSBState) : OpResult :=
  if 0 < s.currentIndex then
    let s1 := { s with currentIndex := s.currentIndex - 1 }
    let r := displayCommit env s1 s1.currentIndex
    ⟨r.state, r.calls, r.threw⟩
  else ⟨s, [], false⟩

/-- `initializeRepo` (lines 267–303): set `globalThis.dir = "/repo"`,
clone-or-fetch at `initialDepth`, check out `origin/<branch>`, load the log
of `origin/<branch>` at `initialDepth`, and display commit 0.  A rejection
of any awaited step propagates. -/
def initializeRepo (env0 : GitEnv) (s : NSBState) : OpResult :=
  let env := { env0 with gdir := "/repo" }
  let s1 := updateStatus s ("Loading " ++ toString s.initialDepth ++ " commits...")
  let cf := cloneOrFetchRepo env
    { fs := env.fsH, http := env.httpH, dir := "/repo", url := s.repoUrl,
      branch := s.branch, depth := s.initialDepth }
  if cf.2 then ⟨s1, cf.1, true⟩
  else
    let cargs : CheckoutArgs :=
      { fs := env.fsH, dir := "/repo", ref := "origin/" ++ s.branch, force := none }
    if env.checkoutOk cargs then
      let gc := getCommits env
        { fs := env.fsH, dir := "/repo", ref := "origin/" ++ s.branch,
          depth := s.initialDepth }
      match gc.1 with
      | .ok commits =>
          let s2 := updateStatus { s1 with log := commits } ""
          let r := displayCommit env s2 0
          ⟨r.state, cf.1 ++ [.checkout cargs] ++ gc.2 ++ r.calls, r.threw⟩
      | .error _ => ⟨s1, cf.1 ++ [.checkout cargs] ++ gc.2, true⟩
    else ⟨s1, cf.1 ++ [.checkout cargs], true⟩

/-- `LogMonotone env s`: the modelling assumption on the external git
library needed around `prefetchMore`: deepening a shallow clone and
re-running `git.log` on the same ref returns at least as many commits as
are currently loaded. -/
def LogMonotone (env : GitEnv) (s : NSBState) : Prop :=
  ∀ cs, env.logRes (prefetchLogArgs env s) = .ok cs → s.log.length ≤ cs.length

/-- States reachable from a freshly constructed component (lines 105–109:
`currentIndex = 0`, `log = []`) by the four stateful operations, each run
against an environment satisfying `LogMonotone` where a prefetch can occur. -/
inductive Reachable : NSBState → Prop where
  | init (s : NSBState) (h0 : s.currentIndex = 0) (h1 : s.log = []) : Reachable s
  | older (env : GitEnv) (s : NSBState) (h : Reachable s) (hm : LogMonotone env s) :
      Reachable (showOlder env s).state
  | newer (env : GitEnv) (s : NSBState) (h : Reachable s) :
      Reachable (showNewer env s).state
  | prefetch (env : GitEnv) (s : NSBState) (h : Reachable s) (hm : LogMonotone env s) :
      Reachable (prefetchMore env s).1
  | display (env : GitEnv) (s : NSBState) (i : Int) (h : Reachable s) :
      Reachable (displayCommit env s i).state

/-- The strengthened index invariant: `currentIndex` is non-negative and is
either 0 (in particular while the log is still empty) or within the loaded
log. -/
def IndexInv (s : NSBState) : Prop :=
  0 ≤ s.currentIndex ∧
    (s.currentIndex = 0 ∨ s.currentIndex ≤ (s.log.length : Int) - 1)

end NewsSummaryBrowser

/-! ### Concrete fixtures used by the witness theorems -/

/-- A concrete commit. -/
def cA : Commit := ⟨"a1b2", ⟨"first commit"⟩⟩

/-- A concrete commit. -/
def cB : Commit := ⟨"c3d4", ⟨"second commit"⟩⟩

/-- A concrete commit. -/
def cC : Commit := ⟨"e5f6", ⟨"third commit"⟩⟩

/-- An environment in which every git call succeeds and `git.log` returns
exactly `depth` commits. -/
def envA : GitEnv :=
  { cloneOk := fun _ => true, fetchOk := fun _ => true,
    logRes := fun la => .ok (List.replicate la.depth cA),
    checkoutOk := fun _ => true, readFileRes := fun _ => .ok "<p>news</p>",
    renderBody := fun f => f, fsH := 0, httpH := 0, gdir := "/repo" }

/-- Like `envA` but `git.clone` rejects. -/
def envNoClone : GitEnv := { envA with cloneOk := fun _ => false }

/-- Like `envA` but `git.fetch` rejects. -/
def envNoFetch : GitEnv := { envA with fetchOk := fun _ => false }

/-- The freshly constructed component state with the default attributes. -/
def s0 : NSBState :=
  NewsSummaryBrowser.initState "https://github.com/kherrick/news-summary" "main" 10 2 10

/-- A state with three loaded commits, displaying the newest. -/
def sNav : NSBState := { s0 with log := [cA, cB, cC] }

/-- A state with three loaded commits, displaying the oldest. -/
def sNav2 : NSBState := { sNav with currentIndex := 2 }

/-- A state in which a prefetch is in flight. -/
def sBusy : NSBState := { s0 with isFetching := true, loadingMore := true }

/-- A state in which a previous prefetch failed. -/
def sFailed : NSBState := { s0 with fetchFailed := true }

/-- A state with nine loaded commits, displaying the newest. -/
def sBig : NSBState := { s0 with log := List.replicate 9 cA }

/-- Concrete arguments for `cloneOrFetchRepo`. -/
def aCF : CloneOrFetchArgs :=
  { fs := 0, http := 0, dir := "/repo",
    url := "https://github.com/kherrick/news-summary", branch := "main", depth := 10 }

/-- The `git.clone` argument object `cloneOrFetchRepo` builds from `aCF`. -/
def cloneArgsW : CloneArgs :=
  { fs := 0, http := 0, dir := "/repo",
    url := "https://github.com/kherrick/news-summary", ref := "main",
    singleBranch := true, depth := 10, corsProxy := corsProxyURL }

/-- The `git.fetch` argument object `cloneOrFetchRepo` builds from `aCF`. -/
def fetchArgsW : FetchArgs :=
  { fs := 0, http := 0, dir := "/repo",
    url := "https://github.com/kherrick/news-summary", ref := "main",
    singleBranch := true, depth := 10, shallow := none, corsProxy := corsProxyURL }

namespace NewsSummaryBrowser

theorem updateStatus_currentIndex (s : NSBState) (m : String) :
    (updateStatus s m).currentIndex = s.currentIndex := rfl

theorem updateStatus_log (s : NSBState) (m : String) :
    (updateStatus s m).log = s.log := rfl

theorem updateUI_currentIndex (s : NSBState) :
    (updateUI s).currentIndex = s.currentIndex := by
  unfold updateUI
  cases getAt? s.log s.currentIndex <;> rfl

theorem updateUI_log (s : NSBState) : (updateUI s).log = s.log := by
  unfold updateUI
  cases getAt? s.log s.currentIndex <;> rfl

theorem updateUI_fetchFailed (s : NSBState) :
    (updateUI s).fetchFailed = s.fetchFailed := by
  unfold updateUI
  cases getAt? s.log s.currentIndex <;> rfl

theorem updateUI_isFetching (s : NSBState) :
    (updateUI s).isFetching = s.isFetching := by
  unfold updateUI
  cases getAt? s.log s.currentIndex <;> rfl

theorem updateUI_loadingMore (s : NSBState) :
    (updateUI s).loadingMore = s.loadingMore := by
  unfold updateUI
  cases getAt? s.log s.currentIndex <;> rfl

theorem updateUI_statusText (s : NSBState) :
    (updateUI s).statusText = s.statusText := by
  unfold updateUI
  cases getAt? s.log s.currentIndex <;> rfl

theorem updateUI_contentHTML (s : NSBState) :
    (updateUI s).contentHTML = s.contentHTML := by
  unfold updateUI
  cases getAt? s.log s.currentIndex <;> rfl

theorem prefetchFinish_currentIndex (s : NSBState) (f : Bool) :
    (prefetchFinish s f).currentIndex = s.currentIndex := by
  unfold prefetchFinish
  rw [updateUI_currentIndex]
  rfl

theorem prefetchFinish_log (s : NSBState) (f : Bool) :
    (prefetchFinish s f).log = s.log := by
  unfold prefetchFinish
  rw [updateUI_log]
  rfl

theorem prefetchFinish_fetchFailed (s : NSBState) (f : Bool) :
    (prefetchFinish s f).fetchFailed = f := by
  unfold prefetchFinish
  rw [updateUI_fetchFailed]
  rfl

theorem prefetchFinish_isFetching (s : NSBState) (f : Bool) :
    (prefetchFinish s f).isFetching = false := by
  unfold prefetchFinish
  rw [updateUI_isFetching]
  rfl

theorem prefetchFinish_loadingMore (s : NSBState) (f : Bool) :
    (prefetchFinish s f).loadingMore = false := by
  unfold prefetchFinish
  rw [updateUI_loadingMore]
  rfl

theorem prefetchFinish_statusText (s : NSBState) (f : Bool) :
    (prefetchFinish s f).statusText =
      (if f then "Reached oldest commit" else "") := by
  unfold prefetchFinish
  rw [updateUI_statusText]
  rfl

theorem prefetchMore_bail (env : GitEnv) (s : NSBState)
    (h : s.isFetching = true ∨ s.fetchFailed = true ∨ s.loadingMore = true) :
    prefetchMore env s = (s, []) := by
  unfold prefetchMore
  rw [if_pos h]

theorem prefetchMore_currentIndex (env : GitEnv) (s : NSBState) :
    (prefetchMore env s).1.currentIndex = s.currentIndex := by
  unfold prefetchMore
  split
  · rfl
  · dsimp only
    split
    · split <;> rw [prefetchFinish_currentIndex] <;> rfl
    · rw [prefetchFinish_currentIndex]
      rfl

theorem prefetchMore_run (env : GitEnv) (s : NSBState)
    (hIF : s.isFetching = false) (hFF : s.fetchFailed = false)
    (hLM : s.loadingMore = false) :
    prefetchMore env s =
      (if env.fetchOk (prefetchFetchArgs env s) then
        match env.logRes (prefetchLogArgs env s) with
        | .ok commits =>
            (prefetchFinish
              { s with
                isFetching := true, loadingMore := true,
                statusText := "Fetching " ++ toString s.fetchStep ++
                  " more commits... (" ++
                  toString (s.log.length + s.fetchStep) ++ " total)",
                log := commits } false,
              [.fetch (prefetchFetchArgs env s), .log (prefetchLogArgs env s)])
        | .error _ =>
            (prefetchFinish
              { s with
                isFetching := true, loadingMore := true,
                statusText := "Fetching " ++ toString s.fetchStep ++
                  " more commits... (" ++
                  toString (s.log.length + s.fetchStep) ++ " total)" } true,
              [.fetch (prefetchFetchArgs env s), .log (prefetchLogArgs env s)])
      else
        (prefetchFinish
          { s with
            isFetching := true, loadingMore := true,
            statusText := "Fetching " ++ toString s.fetchStep ++
              " more commits... (" ++
              toString (s.log.length + s.fetchStep) ++ " total)" } true,
          [.fetch (prefetchFetchArgs env s)])) := by
  unfold prefetchMore
  rw [if_neg]
  · rfl
  · simp [hIF, hFF, hLM]

theorem getAt?_eq_none (l : List Commit) (i : Int)
    (h : i < 0 ∨ (l.length : Int) ≤ i) : getAt? l i = none := by
  unfold getAt?
  rcases h with h | h
  · rw [if_neg (by omega)]
  · split
    · exact List.get?_eq_none.mpr (by omega)
    · rfl

theorem getAt?_eq_some (l : List Commit) (i : Int) (c : Commit)
    (h : getAt? l i = some c) :
    0 ≤ i ∧ i < (l.length : Int) ∧ l.get? i.toNat = some c := by
  unfold getAt? at h
  by_cases h0 : 0 ≤ i
  · rw [if_pos h0] at h
    obtain ⟨hlt, -⟩ := List.get?_eq_some.mp h
    exact ⟨h0, by omega, h⟩
  · rw [if_neg h0] at h
    exact absurd h (by simp)

theorem displayCommit_oob (env : GitEnv) (s : NSBState) (i : Int)
    (h : i < 0 ∨ (s.log.length : Int) ≤ i) :
    displayCommit env s i = ⟨s, [], false⟩ := by
  unfold displayCommit
  rw [getAt?_eq_none s.log i h]

theorem displayCommit_log (env : GitEnv) (s : NSBState) (i : Int) :
    (displayCommit env s i).state.log = s.log := by
  unfold displayCommit
  cases getAt? s.log i
  · rfl
  · dsimp only
    split
    · split <;> rw [updateUI_log]
    · rfl

theorem displayCommit_currentIndex (env : GitEnv) (s : NSBState) (i : Int)
    (c : Commit) (h : getAt? s.log i = some c) :
    (displayCommit env s i).state.currentIndex = i := by
  unfold displayCommit
  rw [h]
  dsimp only
  split
  · split <;> rw [updateUI_currentIndex]
  · rfl

theorem displayCommit_no_fetch (env : GitEnv) (s : NSBState) (i : Int)
    (a : FetchArgs) : GitCall.fetch a ∉ (displayCommit env s i).calls := by
  unfold displayCommit
  cases getAt? s.log i
  · simp
  · dsimp only
    split
    · split <;> simp [checkoutCommit, readIndexFile]
    · simp [checkoutCommit]

theorem displayCommit_currentIndex_self (env : GitEnv) (s : NSBState) :
    (displayCommit env s s.currentIndex).state.currentIndex = s.currentIndex := by
  cases hg : getAt? s.log s.currentIndex with
  | none =>
    unfold displayCommit
    rw [hg]
  | some c => exact displayCommit_currentIndex env s s.currentIndex c hg

theorem updateUI_commitInfo (s : NSBState) (c : Commit)
    (h : getAt? s.log s.currentIndex = some c) :
    (updateUI s).commitInfo = commitInfoText s.currentIndex s.log.length c := by
  unfold updateUI
  rw [h]

theorem displayCommit_ok_spec (env : GitEnv) (s : NSBState) (i : Int) (c : Commit)
    (hc : getAt? s.log i = some c)
    (hco : env.checkoutOk
      { fs := env.fsH, dir := env.gdir, ref := c.oid, force := some true } = true) :
    (displayCommit env s i).calls =
      [.checkout { fs := env.fsH, dir := env.gdir, ref := c.oid, force := some true },
       .readFile (env.gdir ++ "/index.html")] ∧
    (displayCommit env s i).threw = false ∧
    (∀ f, env.readFileRes (env.gdir ++ "/index.html") = .ok f →
      (displayCommit env s i).state.contentHTML = env.renderBody f) ∧
    (∀ e : Unit, env.readFileRes (env.gdir ++ "/index.html") = .error e →
      (displayCommit env s i).state.contentHTML = fallbackHTML) ∧
    (displayCommit env s i).state.commitInfo = commitInfoText i s.log.length c := by
  unfold displayCommit
  rw [hc]
  dsimp only [checkoutCommit, readIndexFile]
  rw [if_pos hco]
  cases hrf : env.readFileRes (env.gdir ++ "/index.html") with
  | ok f =>
    refine ⟨rfl, rfl, ?_, ?_, ?_⟩
    · intro f' hf'
      injection hf' with hff
      subst hff
      dsimp only
      rw [updateUI_contentHTML]
    · intro e he
      cases he
    · dsimp only
      exact updateUI_commitInfo _ c hc
  | error e =>
    refine ⟨rfl, rfl, ?_, ?_, ?_⟩
    · intro f' hf'
      cases hf'
    · intro e' _
      dsimp only
      rw [updateUI_contentHTML]
    · dsimp only
      exact updateUI_commitInfo _ c hc

theorem showOlderPre_currentIndex (env : GitEnv) (s : NSBState) :
    (showOlderPre env s).1.currentIndex = s.currentIndex := by
  unfold showOlderPre
  dsimp only
  split
  · exact prefetchMore_currentIndex env s
  · rfl

theorem showOlder_calls_split (env : GitEnv) (s : NSBState) :
    ∃ rest, (showOlder env s).calls = (showOlderPre env s).2 ++ rest ∧
      ∀ a : FetchArgs, GitCall.fetch a ∉ rest := by
  unfold showOlder
  dsimp only
  split
  · exact ⟨_, rfl, fun a => displayCommit_no_fetch env _ _ a⟩
  · exact ⟨[], by simp, by simp⟩

theorem prefetchMore_fetch_mem (env : GitEnv) (s : NSBState)
    (hIF : s.isFetching = false) (hFF : s.fetchFailed = false)
    (hLM : s.loadingMore = false) :
    GitCall.fetch (prefetchFetchArgs env s) ∈ (prefetchMore env s).2 := by
  rw [prefetchMore_run env s hIF hFF hLM]
  split
  · cases env.logRes (prefetchLogArgs env s) <;> simp
  · simp

theorem showOlder_no_fetch_of_fetchFailed (env2 : GitEnv) (s2 : NSBState)
    (h : s2.fetchFailed = true) (a : FetchArgs) :
    GitCall.fetch a ∉ (showOlder env2 s2).calls := by
  obtain ⟨rest, hcalls, hnf⟩ := showOlder_calls_split env2 s2
  have hpre : showOlderPre env2 s2 = (s2, []) := by
    unfold showOlderPre
    dsimp only
    rw [if_neg]
    rintro ⟨-, hff, -⟩
    rw [h] at hff
    cases hff
  intro hmem
  rw [hcalls, hpre] at hmem
  exact hnf a (by simpa using hmem)

theorem displayCommit_indexInv (env : GitEnv) (s : NSBState) (i : Int)
    (h : IndexInv s) : IndexInv (displayCommit env s i).state := by
  cases hg : getAt? s.log i with
  | none =>
    unfold displayCommit
    rw [hg]
    exact h
  | some c =>
    obtain ⟨h0, h1, -⟩ := getAt?_eq_some s.log i c hg
    have hci := displayCommit_currentIndex env s i c hg
    have hlg := displayCommit_log env s i
    unfold IndexInv
    rw [hci, hlg]
    exact ⟨h0, Or.inr (by omega)⟩

theorem prefetchMore_indexInv (env : GitEnv) (s : NSBState)
    (hm : LogMonotone env s) (h : IndexInv s) :
    IndexInv (prefetchMore env s).1 := by
  by_cases hb : s.isFetching = true ∨ s.fetchFailed = true ∨ s.loadingMore = true
  · rw [prefetchMore_bail env s hb]
    exact h
  · simp only [not_or, Bool.not_eq_true] at hb
    obtain ⟨hIF, hFF, hLM⟩ := hb
    rw [prefetchMore_run env s hIF hFF hLM]
    split
    · cases hlr : env.logRes (prefetchLogArgs env s) with
      | ok cs =>
        have hlen := hm cs hlr
        unfold IndexInv at h ⊢
        dsimp only
        rw [prefetchFinish_currentIndex, prefetchFinish_log]
        dsimp only
        omega
      | error e =>
        unfold IndexInv at h ⊢
        dsimp only
        rw [prefetchFinish_currentIndex, prefetchFinish_log]
        dsimp only
        omega
    · unfold IndexInv at h ⊢
      dsimp only
      rw [prefetchFinish_currentIndex, prefetchFinish_log]
      dsimp only
      omega

theorem showOlderPre_indexInv (env : GitEnv) (s : NSBState)
    (hm : LogMonotone env s) (h : IndexInv s) :
    IndexInv (showOlderPre env s).1 := by
  unfold showOlderPre
  dsimp only
  split
  · exact prefetchMore_indexInv env s hm h
  · exact h

theorem showOlder_indexInv (env : GitEnv) (s : NSBState)
    (hm : LogMonotone env s) (h : IndexInv s) :
    IndexInv (showOlder env s).state := by
  have hpre := showOlderPre_indexInv env s hm h
  unfold showOlder
  dsimp only
  split
  · next hlt =>
    apply displayCommit_indexInv
    unfold IndexInv at hpre ⊢
    dsimp only
    omega
  · exact hpre

theorem showNewer_indexInv (env : GitEnv) (s : NSBState) (h : IndexInv s) :
    IndexInv (showNewer env s).state := by
  unfold showNewer
  dsimp only
  split
  · next hpos =>
    apply displayCommit_indexInv
    unfold IndexInv at h ⊢
    dsimp only
    omega
  · exact h

theorem reachable_indexInv (s : NSBState) (h : Reachable s) : IndexInv s := by
  induction h with
  | init s h0 h1 => exact ⟨by omega, Or.inl h0⟩
  | older env s h hm ih => exact showOlder_indexInv env s hm ih
  | newer env s h ih => exact showNewer_indexInv env s ih
  | prefetch env s h hm ih => exact prefetchMore_indexInv env s hm ih
  | display env s i h ih => exact displayCommit_indexInv env s i ih

end NewsSummaryBrowser

/-! ### Claim theorems -/

open NewsSummaryBrowser

/-- Claim C2: for every call to `cloneOrFetchRepo`, if `git.clone` succeeds
then `git.fetch` is never called; if `git.clone` throws then `git.fetch` is
called exactly once with the same `fs`, `http`, `dir`, `url`, `ref`
(= `branch`), `singleBranch: true` and `depth`, and `cloneOrFetchRepo`
completes normally if and only if that fallback fetch succeeds. -/
theorem cloneOrFetchRepo_fallback_spec (env : GitEnv) (a : CloneOrFetchArgs) :
    (env.cloneOk
        { fs := a.fs, http := a.http, dir := a.dir, url := a.url, ref := a.branch,
          singleBranch := true, depth := a.depth, corsProxy := corsProxyURL } = true →
      cloneOrFetchRepo env a =
        ([.clone
            { fs := a.fs, http := a.http, dir := a.dir, url := a.url, ref := a.branch,
              singleBranch := true, depth := a.depth, corsProxy := corsProxyURL }],
          false)) ∧
    (env.cloneOk
        { fs := a.fs, http := a.http, dir := a.dir, url := a.url, ref := a.branch,
          singleBranch := true, depth := a.depth, corsProxy := corsProxyURL } = false →
      (cloneOrFetchRepo env a).1 =
        [.clone
          { fs := a.fs, http := a.http, dir := a.dir, url := a.url, ref := a.branch,
            singleBranch := true, depth := a.depth, corsProxy := corsProxyURL },
         .fetch
          { fs := a.fs, http := a.http, dir := a.dir, url := a.url, ref := a.branch,
            singleBranch := true, depth := a.depth, shallow := none,
            corsProxy := corsProxyURL }] ∧
      ((cloneOrFetchRepo env a).2 = false ↔
        env.fetchOk
          { fs := a.fs, http := a.http, dir := a.dir, url := a.url, ref := a.branch,
            singleBranch := true, depth := a.depth, shallow := none,
            corsProxy := corsProxyURL } = true)) := by
  constructor
  · intro h
    unfold cloneOrFetchRepo
    rw [if_pos h]
  · intro h
    unfold cloneOrFetchRepo
    rw [if_neg (by simp [h])]
    exact ⟨rfl, by simp⟩

/-- Witness for C2: both the clone-success and the clone-failure branch at a
concrete environment and concrete arguments. -/
theorem cloneOrFetchRepo_fallback_spec_witness :
    cloneOrFetchRepo envA aCF = ([.clone cloneArgsW], false) ∧
    ((cloneOrFetchRepo envNoClone aCF).1 = [.clone cloneArgsW, .fetch fetchArgsW] ∧
      ((cloneOrFetchRepo envNoClone aCF).2 = false ↔
        envNoClone.fetchOk fetchArgsW = true)) :=
  ⟨(cloneOrFetchRepo_fallback_spec envA aCF).1 rfl,
   (cloneOrFetchRepo_fallback_spec envNoClone aCF).2 rfl⟩

/-- Claim C9: if any of `isFetching`, `fetchFailed`, `loadingMore` is true on
entry, `prefetchMore` returns immediately with no call and no state change;
and whenever it proceeds, `isFetching` and `loadingMore` are both false again
when it completes (the `finally` branch always runs). -/
theorem prefetchMore_reentrancy_guard :
    (∀ (env : GitEnv) (s : NSBState),
      s.isFetching = true ∨ s.fetchFailed = true ∨ s.loadingMore = true →
      prefetchMore env s = (s, [])) ∧
    (∀ (env : GitEnv) (s : NSBState),
      s.isFetching = false → s.fetchFailed = false → s.loadingMore = false →
      (prefetchMore env s).1.isFetching = false ∧
        (prefetchMore env s).1.loadingMore = false) := by
  constructor
  · exact fun env s h => prefetchMore_bail env s h
  · intro env s hIF hFF hLM
    rw [prefetchMore_run env s hIF hFF hLM]
    split
    · cases env.logRes (prefetchLogArgs env s) <;>
        simp [prefetchFinish_isFetching, prefetchFinish_loadingMore]
    · simp [prefetchFinish_isFetching, prefetchFinish_loadingMore]

/-- Witness for C9: a busy state is returned unchanged; from an idle state
the flags are clear again on completion. -/
theorem prefetchMore_reentrancy_guard_witness :
    prefetchMore envA sBusy = (sBusy, []) ∧
    ((prefetchMore envA s0).1.isFetching = false ∧
      (prefetchMore envA s0).1.loadingMore = false) :=
  ⟨prefetchMore_reentrancy_guard.1 envA sBusy (Or.inl rfl),
   prefetchMore_reentrancy_guard.2 envA s0 rfl rfl rfl⟩

/-- Claim C5: if the `git.fetch` inside `prefetchMore` throws, then on
completion `fetchFailed` is true, `log` is unchanged, the status text is
`Reached oldest commit`, and for as long as `fetchFailed` stays true every
later `prefetchMore` is a no-op and every later `showOlder` performs no
fetch. -/
theorem prefetchMore_failure_latch (env : GitEnv) (s : NSBState)
    (hIF : s.isFetching = false) (hFF : s.fetchFailed = false)
    (hLM : s.loadingMore = false)
    (hfe : env.fetchOk (prefetchFetchArgs env s) = false) :
    (prefetchMore env s).1.fetchFailed = true ∧
    (prefetchMore env s).1.log = s.log ∧
    (prefetchMore env s).1.statusText = "Reached oldest commit" ∧
    (∀ (env2 : GitEnv) (s2 : NSBState), s2.fetchFailed = true →
      prefetchMore env2 s2 = (s2, []) ∧
      ∀ a : FetchArgs, GitCall.fetch a ∉ (showOlder env2 s2).calls) := by
  rw [prefetchMore_run env s hIF hFF hLM, if_neg (by simp [hfe])]
  refine ⟨?_, ?_, ?_, ?_⟩
  · simp [prefetchFinish_fetchFailed]
  · simp [prefetchFinish_log]
  · simp [prefetchFinish_statusText]
  · intro env2 s2 h2
    exact ⟨prefetchMore_bail env2 s2 (Or.inr (Or.inl h2)),
      fun a => showOlder_no_fetch_of_fetchFailed env2 s2 h2 a⟩

/-- Witness for C5: a fetch failure from the idle default state, and the
resulting latch exercised on a concrete failed state. -/
theorem prefetchMore_failure_latch_witness :
    (prefetchMore envNoFetch s0).1.fetchFailed = true ∧
    (prefetchMore envNoFetch s0).1.log = s0.log ∧
    (prefetchMore envNoFetch s0).1.statusText = "Reached oldest commit" ∧
    prefetchMore envA sFailed = (sFailed, []) :=
  ⟨(prefetchMore_failure_latch envNoFetch s0 rfl rfl rfl rfl).1,
   (prefetchMore_failure_latch envNoFetch s0 rfl rfl rfl rfl).2.1,
   (prefetchMore_failure_latch envNoFetch s0 rfl rfl rfl rfl).2.2.1,
   ((prefetchMore_failure_latch envNoFetch s0 rfl rfl rfl rfl).2.2.2 envA sFailed
      rfl).1⟩

/-- Claim C3: `showOlder` increases `currentIndex` by exactly 1 when
`currentIndex < log.length - 1` holds after the conditional prefetch
(`showOlderPre`), and leaves it unchanged otherwise; `showNewer` decreases
`currentIndex` by exactly 1 when `currentIndex > 0`, and leaves it unchanged
otherwise. -/
theorem showOlder_showNewer_step (env : GitEnv) (s : NSBState) :
    ((showOlderPre env s).1.currentIndex <
        ((showOlderPre env s).1.log.length : Int) - 1 →
      (showOlder env s).state.currentIndex = s.currentIndex + 1) ∧
    (¬((showOlderPre env s).1.currentIndex <
        ((showOlderPre env s).1.log.length : Int) - 1) →
      (showOlder env s).state.currentIndex = s.currentIndex) ∧
    (0 < s.currentIndex →
      (showNewer env s).state.currentIndex = s.currentIndex - 1) ∧
    (s.currentIndex ≤ 0 →
      (showNewer env s).state.currentIndex = s.currentIndex) := by
  refine ⟨?_, ?_, ?_, ?_⟩
  · intro hlt
    unfold showOlder
    dsimp only
    rw [if_pos hlt]
    dsimp only
    rw [displayCommit_currentIndex_self]
    dsimp only
    rw [showOlderPre_currentIndex]
  · intro hlt
    unfold showOlder
    dsimp only
    rw [if_neg hlt]
    dsimp only
    rw [showOlderPre_currentIndex]
  · intro hpos
    unfold showNewer
    dsimp only
    rw [if_pos hpos]
    dsimp only
    rw [displayCommit_currentIndex_self]
  · intro hle
    unfold showNewer
    dsimp only
    rw [if_neg (by omega)]

/-- Witness for C3: from a three-commit state `showOlder` steps the index
from 0 to 1, and from the oldest displayed commit `showNewer` steps it from
2 to 1. -/
theorem showOlder_showNewer_step_witness :
    (showOlder envA sNav).state.currentIndex = sNav.currentIndex + 1 ∧
    (showNewer envA sNav2).state.currentIndex = sNav2.currentIndex - 1 :=
  ⟨(showOlder_showNewer_step envA sNav).1 (by decide),
   (showOlder_showNewer_step envA sNav2).2.2.1 (by decide)⟩

/-- Claim C10: from any state with a non-negative index that is not on the
last loaded commit and with strictly more than `fetchThreshold` commits
remaining (so `showOlder` triggers no prefetch), `showOlder` followed by
`showNewer` restores `currentIndex` and leaves `log` unchanged. -/
theorem showOlder_showNewer_roundtrip (env : GitEnv) (s : NSBState)
    (h0 : 0 ≤ s.currentIndex)
    (h1 : s.currentIndex < (s.log.length : Int) - 1)
    (h2 : (s.fetchThreshold : Int) < (s.log.length : Int) - s.currentIndex - 1) :
    (showNewer env (showOlder env s).state).state.currentIndex = s.currentIndex ∧
    (showNewer env (showOlder env s).state).state.log = s.log := by
  have hpre : showOlderPre env s = (s, []) := by
    unfold showOlderPre
    dsimp only
    rw [if_neg]
    rintro ⟨hA, -, -⟩
    omega
  have hso : (showOlder env s).state.currentIndex = s.currentIndex + 1 ∧
      (showOlder env s).state.log = s.log := by
    unfold showOlder
    rw [hpre]
    dsimp only
    rw [if_pos h1]
    dsimp only
    constructor
    · rw [displayCommit_currentIndex_self]
    · rw [displayCommit_log]
  obtain ⟨hci, hlg⟩ := hso
  unfold showNewer
  dsimp only
  rw [if_pos (by omega)]
  dsimp only
  rw [displayCommit_currentIndex_self, displayCommit_log]
  dsimp only
  constructor
  · omega
  · exact hlg

/-- Witness for C10: the round trip from the nine-commit state. -/
theorem showOlder_showNewer_roundtrip_witness :
    (showNewer envA (showOlder envA sBig).state).state.currentIndex =
      sBig.currentIndex ∧
    (showNewer envA (showOlder envA sBig).state).state.log = sBig.log :=
  showOlder_showNewer_roundtrip envA sBig (by decide) (by decide) (by decide)

/-- Claim C1: in any state at rest (`isFetching` is only true while
`prefetchMore` itself is running), `showOlder` issues a `git.fetch` if and
only if `log.length - currentIndex - 1 ≤ fetchThreshold`, `fetchFailed` is
false and `loadingMore` is false. -/
theorem showOlder_fetch_iff (env : GitEnv) (s : NSBState)
    (h : s.isFetching = false) :
    (∃ a : FetchArgs, GitCall.fetch a ∈ (showOlder env s).calls) ↔
      ((s.log.length : Int) - s.currentIndex - 1 ≤ (s.fetchThreshold : Int) ∧
        s.fetchFailed = false ∧ s.loadingMore = false) := by
  obtain ⟨rest, hcalls, hnf⟩ := showOlder_calls_split env s
  by_cases hc : (s.log.length : Int) - s.currentIndex - 1 ≤ (s.fetchThreshold : Int) ∧
      s.fetchFailed = false ∧ s.loadingMore = false
  · refine iff_of_true ⟨prefetchFetchArgs env s, ?_⟩ hc
    rw [hcalls]
    apply List.mem_append_left
    have hpre : showOlderPre env s = prefetchMore env s := by
      unfold showOlderPre
      dsimp only
      rw [if_pos hc]
    rw [hpre]
    exact prefetchMore_fetch_mem env s h hc.2.1 hc.2.2
  · refine iff_of_false ?_ hc
    rintro ⟨a, ha⟩
    have hpre : showOlderPre env s = (s, []) := by
      unfold showOlderPre
      dsimp only
      rw [if_neg hc]
    rw [hcalls, hpre] at ha
    exact hnf a (by simpa using ha)

/-- Witness for C1: the fresh state (`log = []`, `remaining = -1 ≤ 2`) does
fetch; the nine-commit state (`remaining = 8 > 2`) does not. -/
theorem showOlder_fetch_iff_witness :
    (∃ a : FetchArgs, GitCall.fetch a ∈ (showOlder envA s0).calls) ∧
    ¬(∃ a : FetchArgs, GitCall.fetch a ∈ (showOlder envA sBig).calls) :=
  ⟨(showOlder_fetch_iff envA s0 rfl).mpr (by refine ⟨by decide, rfl, rfl⟩),
   fun hex => by
     have := (showOlder_fetch_iff envA sBig rfl).mp hex
     exact absurd this.1 (by decide)⟩

/-- Claim C4: whenever `prefetchMore` proceeds, the first call it makes is a
`git.fetch` at depth `log.length + fetchStep`, every call it makes carries
that depth, any `git.log` it makes uses exactly those arguments, and on
success `log` becomes the `git.log` result and `fetchFailed` is false. -/
theorem prefetchMore_requests_fetchStep (env : GitEnv) (s : NSBState)
    (hIF : s.isFetching = false) (hFF : s.fetchFailed = false)
    (hLM : s.loadingMore = false) :
    (prefetchMore env s).2.head? =
      some (.fetch
        { fs := env.fsH, http := env.httpH, dir := env.gdir, url := s.repoUrl,
          ref := s.branch, singleBranch := true,
          depth := s.log.length + s.fetchStep, shallow := some true,
          corsProxy := corsProxyURL }) ∧
    (∀ c ∈ (prefetchMore env s).2,
      GitCall.depthOf c = some (s.log.length + s.fetchStep)) ∧
    (∀ la : LogArgs, GitCall.log la ∈ (prefetchMore env s).2 →
      la = { fs := env.fsH, dir := env.gdir, ref := s.branch,
             depth := s.log.length + s.fetchStep }) ∧
    (∀ cs, env.fetchOk (prefetchFetchArgs env s) = true →
      env.logRes (prefetchLogArgs env s) = .ok cs →
      (prefetchMore env s).1.log = cs ∧
        (prefetchMore env s).1.fetchFailed = false) := by
  rw [prefetchMore_run env s hIF hFF hLM]
  by_cases hfo : env.fetchOk (prefetchFetchArgs env s) = true
  · rw [if_pos hfo]
    cases hlr : env.logRes (prefetchLogArgs env s) with
    | ok cs =>
      refine ⟨rfl, ?_, ?_, ?_⟩
      · intro c hc
        rcases (by simpa using hc : c = _ ∨ c = _) with rfl | rfl <;> rfl
      · intro la hla
        have h' : la = prefetchLogArgs env s := by simpa using hla
        rw [h']
        rfl
      · intro cs' hfo' hlr'
        injection hlr' with hcc
        subst hcc
        exact ⟨by simp [prefetchFinish_log], by simp [prefetchFinish_fetchFailed]⟩
    | error e =>
      refine ⟨rfl, ?_, ?_, ?_⟩
      · intro c hc
        rcases (by simpa using hc : c = _ ∨ c = _) with rfl | rfl <;> rfl
      · intro la hla
        have h' : la = prefetchLogArgs env s := by simpa using hla
        rw [h']
        rfl
      · intro cs hfo' hlr'
        cases hlr'
  · rw [if_neg hfo]
    refine ⟨rfl, ?_, ?_, ?_⟩
    · intro c hc
      rcases (by simpa using hc : c = _) with rfl
      rfl
    · intro la hla
      simp at hla
    · intro cs hfo' _
      exact absurd hfo' hfo

/-- Witness for C4: from the fresh default state (`log.length = 0`,
`fetchStep = 10`) the prefetch fetches and logs at depth 10, and on success
stores the ten returned commits. -/
theorem prefetchMore_requests_fetchStep_witness :
    (prefetchMore envA s0).2.head? =
      some (.fetch
        { fs := envA.fsH, http := envA.httpH, dir := envA.gdir,
          url := s0.repoUrl, ref := s0.branch, singleBranch := true,
          depth := s0.log.length + s0.fetchStep, shallow := some true,
          corsProxy := corsProxyURL }) ∧
    ((prefetchMore envA s0).1.log = List.replicate 10 cA ∧
      (prefetchMore envA s0).1.fetchFailed = false) :=
  ⟨(prefetchMore_requests_fetchStep envA s0 rfl rfl rfl).1,
   (prefetchMore_requests_fetchStep envA s0 rfl rfl rfl).2.2.2
     (List.replicate 10 cA) rfl rfl⟩

/-- Claim C6: for an in-range index whose checkout succeeds, `displayCommit`
sets `currentIndex` to the index, checks out `log[index].oid` with force,
reads `index.html`, renders its body into the content element on success and
the fallback markup `<em>No index.html found in commit</em>` on a read
failure, and completes (and refreshes the UI) instead of propagating the
read error. -/
theorem displayCommit_renders_index (env : GitEnv) (s : NSBState) (i : Int)
    (c : Commit) (hc : getAt? s.log i = some c)
    (hco : env.checkoutOk
      { fs := env.fsH, dir := env.gdir, ref := c.oid, force := some true } = true) :
    (displayCommit env s i).state.currentIndex = i ∧
    (displayCommit env s i).calls =
      [.checkout { fs := env.fsH, dir := env.gdir, ref := c.oid, force := some true },
       .readFile (env.gdir ++ "/index.html")] ∧
    (∀ f, env.readFileRes (env.gdir ++ "/index.html") = .ok f →
      (displayCommit env s i).state.contentHTML = env.renderBody f) ∧
    (∀ e : Unit, env.readFileRes (env.gdir ++ "/index.html") = .error e →
      (displayCommit env s i).state.contentHTML = fallbackHTML) ∧
    (displayCommit env s i).threw = false ∧
    (displayCommit env s i).state.commitInfo = commitInfoText i s.log.length c := by
  obtain ⟨hcalls, hthrew, hok, herr, hinfo⟩ := displayCommit_ok_spec env s i c hc hco
  exact ⟨displayCommit_currentIndex env s i c hc, hcalls, hok, herr, hthrew, hinfo⟩

/-- Witness for C6: displaying index 1 of the three-commit state checks out
`cB` and renders the read file. -/
theorem displayCommit_renders_index_witness :
    (displayCommit envA sNav 1).state.currentIndex = 1 ∧
    (displayCommit envA sNav 1).state.contentHTML = envA.renderBody "<p>news</p>" ∧
    (displayCommit envA sNav 1).threw = false :=
  ⟨(displayCommit_renders_index envA sNav 1 cB rfl rfl).1,
   (displayCommit_renders_index envA sNav 1 cB rfl rfl).2.2.1 "<p>news</p>" rfl,
   (displayCommit_renders_index envA sNav 1 cB rfl rfl).2.2.2.2.1⟩

/-- Claim C8: every state reachable from the constructed state
(`currentIndex = 0`, `log = []`) keeps `currentIndex` non-negative and, when
the log is non-empty, at most `log.length - 1`; and `displayCommit` with an
out-of-range index returns immediately with no call and no change at all. -/
theorem reachable_index_bounds :
    (∀ s : NSBState, Reachable s →
      0 ≤ s.currentIndex ∧
        (s.log ≠ [] → s.currentIndex ≤ (s.log.length : Int) - 1)) ∧
    (∀ (env : GitEnv) (s : NSBState) (i : Int),
      i < 0 ∨ (s.log.length : Int) ≤ i →
      displayCommit env s i = ⟨s, [], false⟩) := by
  constructor
  · intro s h
    obtain ⟨h0, h1⟩ := reachable_indexInv s h
    refine ⟨h0, fun hne => ?_⟩
    have hlen : s.log.length ≠ 0 := fun hz => hne (List.length_eq_zero.mp hz)
    rcases h1 with h1 | h1 <;> omega
  · exact fun env s i h => displayCommit_oob env s i h

/-- Witness for C8: the constructed state satisfies the bounds, and an
out-of-range `displayCommit` on the three-commit state is the identity. -/
theorem reachable_index_bounds_witness :
    (0 ≤ s0.currentIndex ∧
      (s0.log ≠ [] → s0.currentIndex ≤ (s0.log.length : Int) - 1)) ∧
    displayCommit envA sNav 3 = ⟨sNav, [], false⟩ :=
  ⟨reachable_index_bounds.1 s0 (Reachable.init s0 rfl rfl),
   reachable_index_bounds.2 envA sNav 3 (Or.inr (by decide))⟩

/-- Claim C7: on the happy path, `initializeRepo` performs, in order, the
clone-or-fetch of `repoUrl` on the configured branch at `initialDepth`, a
checkout of `origin/<branch>`, a `git.log` of `origin/<branch>` at
`initialDepth` whose result becomes `log`, and finally `displayCommit 0`, so
the newest loaded commit is displayed. -/
theorem initializeRepo_sequence (env : GitEnv) (s : NSBState)
    (cs : List Commit) (c : Commit)
    (hcf : (cloneOrFetchRepo { env with gdir := "/repo" }
      { fs := env.fsH, http := env.httpH, dir := "/repo", url := s.repoUrl,
        branch := s.branch, depth := s.initialDepth }).2 = false)
    (hck : env.checkoutOk
      { fs := env.fsH, dir := "/repo", ref := "origin/" ++ s.branch,
        force := none } = true)
    (hlog : env.logRes
      { fs := env.fsH, dir := "/repo", ref := "origin/" ++ s.branch,
        depth := s.initialDepth } = .ok cs)
    (hc0 : cs.get? 0 = some c)
    (hck0 : env.checkoutOk
      { fs := env.fsH, dir := "/repo", ref := c.oid, force := some true } = true) :
    (initializeRepo env s).state.log = cs ∧
    (initializeRepo env s).state.currentIndex = 0 ∧
    (initializeRepo env s).threw = false ∧
    (initializeRepo env s).calls =
      (cloneOrFetchRepo { env with gdir := "/repo" }
        { fs := env.fsH, http := env.httpH, dir := "/repo", url := s.repoUrl,
          branch := s.branch, depth := s.initialDepth }).1 ++
      [.checkout
        { fs := env.fsH, dir := "/repo", ref := "origin/" ++ s.branch,
          force := none },
       .log
        { fs := env.fsH, dir := "/repo", ref := "origin/" ++ s.branch,
          depth := s.initialDepth },
       .checkout { fs := env.fsH, dir := "/repo", ref := c.oid, force := some true },
       .readFile "/repo/index.html"] := by
  have hga : getAt? cs 0 = some c := by
    unfold getAt?
    rw [if_pos le_rfl]
    simpa using hc0
  unfold initializeRepo getCommits
  dsimp only
  rw [if_neg (by simp [hcf]), if_pos hck, hlog]
  dsimp only
  have hga2 : getAt?
      (updateStatus
        { updateStatus s ("Loading " ++ toString s.initialDepth ++ " commits...") with log := cs }
        "").log 0 = some c := hga
  obtain ⟨hcalls, hthrew, -, -, -⟩ :=
    displayCommit_ok_spec { env with gdir := "/repo" }
      (updateStatus
        { updateStatus s ("Loading " ++ toString s.initialDepth ++ " commits...") with log := cs }
        "") 0 c hga2 hck0
  refine ⟨?_, ?_, ?_, ?_⟩
  · rw [displayCommit_log, updateStatus_log]
  · exact displayCommit_currentIndex { env with gdir := "/repo" }
      (updateStatus
        { updateStatus s ("Loading " ++ toString s.initialDepth ++ " commits...") with log := cs }
        "") 0 c hga2
  · exact hthrew
  · rw [hcalls]
    simp only [List.append_assoc]
    rfl

/-- Witness for C7: initialization against the all-success environment from
the constructed state loads ten commits and displays the newest. -/
theorem initializeRepo_sequence_witness :
    (initializeRepo envA s0).state.log = List.replicate 10 cA ∧
    (initializeRepo envA s0).state.currentIndex = 0 ∧
    (initializeRepo envA s0).threw = false :=
  ⟨(initializeRepo_sequence envA s0 (List.replicate 10 cA) cA rfl rfl rfl rfl rfl).1,
   (initializeRepo_sequence envA s0 (List.replicate 10 cA) cA rfl rfl rfl rfl rfl).2.1,
   (initializeRepo_sequence envA s0 (List.replicate 10 cA) cA rfl rfl rfl rfl
      rfl).2.2.1⟩
